import Mathlib

/-!
# VPT sensor driver (`src/VPT.cpp`): a shallow embedding and its properties

The driver of `VPT.cpp` is embedded as pure functions over an explicit driver
state.  C++ exceptions are values of `Exn`; a member function that can leave by
an exception returns `Except Exn α` together with the state it leaves behind
(mutations made before a `throw` stay made, as in C++).  The collaborators
whose code is outside `src/` (HTTP client, JSON helper, aggregator, clock) are
the fields of `Env`.  Log calls have no effect on the driver state and are left
out.

Conventions
* `unsigned int` values are `Nat` below `2 ^ 32`; the one arithmetic operation
  on them (`time_left -= next_wakeup`) is modelled with its wrap-around.
* `long long` device identifiers are `Int`.
* a `std::string` is a `String`; one `Char` stands for one C++ `char`.
* a `float` reading is carried as an uninterpreted `Nat` code: the driver only
  copies readings, it never computes with them.
-/

set_option autoImplicit false

namespace VPT

/-! ## Exceptions -/

/-- C++ exceptions, split the way the handlers of `VPT.cpp` distinguish them:
`catch (Poco::Exception &)` handles `poco`, only `catch (...)` handles `std`. -/
inductive Exn where
  | poco (text : String)
  | std (what : String)
  deriving DecidableEq, Repr

/-! ## Data model -/

/-- A `float`, carried as an uninterpreted code. -/
abbrev FloatCode := Nat

/-- Generic sensor payload `Device` (declared outside `src/`): the fields that
`VPT.cpp` reads and writes. -/
structure Device where
  version : Int
  euid : Int
  device_id : Int
  pairs : Nat
  values : List (Int × FloatCode)
  deriving DecidableEq, Repr

/-- Per-device record `VPTDevice`: the fields that `VPT.cpp` reads and writes. -/
structure VPTDevice where
  name : String
  ip : String
  sensor : Device
  wake_up_time : Nat
  time_left : Nat
  deriving DecidableEq, Repr

/-- Outbound message `IOTMessage` (declared outside `src/`): the fields that
`VPT.cpp` writes. -/
structure IOTMessage where
  state : String
  priority : Int
  offset : Int
  device : Device
  time : Int
  deriving DecidableEq, Repr

/-- Inbound `Command` (declared outside `src/`): the fields that `VPT.cpp`
reads. -/
structure Command where
  state : String
  euid : Int
  time : Nat
  values : List (Int × FloatCode)
  deriving DecidableEq, Repr

/-- The collaborators of the driver and the values it takes from its
surroundings.  `getID` is a table lookup with a result for every name;
`newDevice` is the value of a default-constructed `VPTDevice` (its declaration
is outside `src/`). -/
structure Env where
  discoverDevices : Except Exn (List String)
  sendRequest : String → Except Exn String
  sendRequestTo : String → String → Except Exn String
  getParameterValuesFromContent : String → String → Except Exn String
  getSensors : String → Except Exn (List (Int × FloatCode))
  getID : String → Int
  generateRequestURL : String → Int → FloatCode → Except Exn String
  loadDeviceConfiguration : String → Except Exn Unit
  sendData : IOTMessage → Except Exn (Bool × Command)
  time : Int
  newDevice : VPTDevice

def VPT_DEFAULT_WAKEUP_TIME : Nat := 15

def VPT_ID_PREFIX : Nat := 0xa4000000

def VPT_ID_MASK : Nat := 0x00ffffff

/-- Value of `~0` stored in an `unsigned int`. -/
def UINT_MAX : Nat := 4294967295

/-! ## `std::string::substr` and `std::stoul` -/

/-- The call `s.substr(pos, n)`: throws `std::out_of_range` when `pos` is past
the end, otherwise the at most `n` characters from `pos` on. -/
def substr (s : List Char) (pos n : Nat) : Except Exn (List Char) :=
  if s.length < pos then .error (.std "out_of_range") else .ok ((s.drop pos).take n)

/-- Value of a base-16 digit character, if it is one. -/
def hexDigit? (c : Char) : Option Nat :=
  if '0' ≤ c ∧ c ≤ '9' then some (c.toNat - 48)
  else if 'a' ≤ c ∧ c ≤ 'f' then some (c.toNat - 87)
  else if 'A' ≤ c ∧ c ≤ 'F' then some (c.toNat - 55)
  else none

def isHexDigit (c : Char) : Bool := (hexDigit? c).isSome

/-- Predicate `isspace` of the C locale. -/
def isSpace (c : Char) : Bool :=
  c = ' ' ∨ (9 ≤ c.toNat ∧ c.toNat ≤ 13)

/-- Base-16 value of a digit string, most significant digit first. -/
def hexVal (cs : List Char) : Nat :=
  cs.foldl (fun acc c => 16 * acc + (hexDigit? c).getD 0) 0

/-- The call `std::stoul(s, nullptr, 16)` with a 64-bit `unsigned long`:
skips white space, takes an optional sign and an optional `0x`, then the
longest run of hex digits.  No digit: `std::invalid_argument`; value past
`ULONG_MAX`: `std::out_of_range`; a minus sign negates modulo `2 ^ 64`. -/
def stoul16 (s : List Char) : Except Exn Nat :=
  let s1 := s.dropWhile isSpace
  let signed : Bool × List Char :=
    match s1 with
    | '-' :: t => (true, t)
    | '+' :: t => (false, t)
    | _ => (false, s1)
  let s2 := signed.2
  let s3 : List Char :=
    match s2 with
    | '0' :: x :: d :: t =>
      if (x = 'x' ∨ x = 'X') ∧ isHexDigit d then d :: t else s2
    | _ => s2
  let ds := s3.takeWhile isHexDigit
  if ds = [] then .error (.std "invalid_argument")
  else if 2 ^ 64 ≤ hexVal ds then .error (.std "out_of_range")
  else .ok (if signed.1 then (2 ^ 64 - hexVal ds) % 2 ^ 64 else hexVal ds)

/-! ## Device identifier -/

/-- Member `VPTSensor::parseDeviceId`.  `id32` is the 64-bit pattern that
`stoul` returned; `&` with the non-negative mask and `|` with the tag act
on that pattern, and the result, below `2 ^ 32`, is a non-negative
`long long`. -/
def parseDeviceId (env : Env) (content : String) : Except Exn Int :=
  match env.getParameterValuesFromContent "id" content with
  | .error e => .error e
  | .ok id =>
    match substr id.toList 5 11 with
    | .error e => .error e
    | .ok sub =>
      match stoul16 sub with
      | .error e => .error e
      | .ok id32 => .ok (Int.ofNat ( VPT_ID_PREFIX ||| (id32 &&& VPT_ID_MASK)))

/-! ## The device mapping `std::map<long long, VPTDevice>`

An association list kept in increasing key order.  The functions assume, and
do not require, that order; `WellFormed` states it. -/

abbrev DeviceMap := List (Int × VPTDevice)

def keys (m : DeviceMap) : List Int := m.map Prod.fst

/-- Keys strictly increasing: the order and uniqueness that every `std::map`
has. -/
def WellFormed (m : DeviceMap) : Prop := (keys m).Pairwise (fun a b => a < b)

/-- Lookup `map_devices.find(k)`; `none` stands for `end()`. -/
def find : DeviceMap → Int → Option VPTDevice
  | [], _ => none
  | (k', d) :: t, k => if k' = k then some d else find t k

/-- Placement of a new node in key order. -/
def orderedInsert (k : Int) (d : VPTDevice) : DeviceMap → DeviceMap
  | [] => [(k, d)]
  | (k', d') :: t =>
    if k < k' then (k, d) :: (k', d') :: t else (k', d') :: orderedInsert k d t

/-- The call `map_devices.insert({k, d})`: a key already present keeps its
record, the argument is dropped. -/
def insert (m : DeviceMap) (k : Int) (d : VPTDevice) : DeviceMap :=
  if (find m k).isSome then m else orderedInsert k d m

/-- Write through a reference `it->second` to the record stored under `k`. -/
def modify (m : DeviceMap) (k : Int) (f : VPTDevice → VPTDevice) : DeviceMap :=
  m.map (fun e => if e.1 = k then (e.1, f e.2) else e)

/-- Key of `map_devices.begin()`; `none` stands for `end()`. -/
def beginKey (m : DeviceMap) : Option Int := m.head?.map Prod.fst

/-- Key reached by `it++` from the node with key `k`. -/
def nextKey (m : DeviceMap) (k : Int) : Option Int :=
  (m.find? (fun e => decide (k < e.1))).map Prod.fst

/-! ## Member functions of `VPTSensor` -/

/-- Member `VPTSensor::nextWakeup`. -/
def nextWakeup (m : DeviceMap) : Nat :=
  m.foldl (fun min_time e => if e.2.time_left < min_time then e.2.time_left else min_time)
    UINT_MAX

/-- Lines 141-147: the assignments to the local `device` of `detectDevices`,
for the locator `it`, the parsed `id` and the extracted `name`. -/
def fillRecord (env : Env) (device : VPTDevice) (it : String) (id : Int) (name : String) :
    VPTDevice :=
  { device with
    name := name
    ip := it
    sensor := { version := 1, euid := id, device_id := env.getID name, pairs := 0, values := [] } }

/-- One turn of the `for` loop of `detectDevices`; `acc.1` is the local
`device`, which lives across the turns.  Every exception of the `try` block is
swallowed by `catch (...)`. -/
def detectStep (env : Env) (acc : VPTDevice × DeviceMap) (it : String) :
    VPTDevice × DeviceMap :=
  match env.sendRequest it with
  | .error _ => acc
  | .ok content =>
    match parseDeviceId env content with
    | .error _ => acc
    | .ok id =>
      match env.getParameterValuesFromContent "device" content with
      | .error _ => acc
      | .ok name =>
        (fillRecord env acc.1 it id name, insert acc.2 id (fillRecord env acc.1 it id name))

/-- Member `VPTSensor::detectDevices`.  Only `discoverDevices()` stands
outside the `try` block. -/
def detectDevices (env : Env) (m : DeviceMap) : Except Exn Unit × DeviceMap :=
  match env.discoverDevices with
  | .error e => (.error e, m)
  | .ok devices => (.ok (), (devices.foldl (detectStep env) (env.newDevice, m)).2)

/-- Member `VPTSensor::isVPTSensor`. -/
def isVPTSensor (m : DeviceMap) (euid : Int) : Bool := (find m euid).isSome

/-- Member `VPTSensor::updateDeviceWakeUp`. -/
def updateDeviceWakeUp (m : DeviceMap) (euid : Int) (time : Nat) : DeviceMap :=
  match find m euid with
  | none => m
  | some _ =>
    modify m euid (fun dev =>
      let w := if time < VPT_DEFAULT_WAKEUP_TIME then VPT_DEFAULT_WAKEUP_TIME else time
      { dev with wake_up_time := w, time_left := w })

/-- Member `VPTSensor::processCmdSet`.  `cmd.values.at(0)` throws
`std::out_of_range` on an empty vector. -/
def processCmdSet (env : Env) (m : DeviceMap) (cmd : Command) : Except Exn Unit :=
  match find m cmd.euid with
  | none => .ok ()
  | some dev =>
    match cmd.values with
    | [] => .error (.std "out_of_range")
    | value :: _ =>
      match env.generateRequestURL dev.name value.1 value.2 with
      | .error e => .error e
      | .ok request_url =>
        if request_url.isEmpty then .ok ()
        else
          match env.sendRequestTo dev.ip request_url with
          | .error e => .error e
          | .ok _ => .ok ()

/-- Member `VPTSensor::pairDevices`: `catch (Poco::Exception &)` inside the
loop. -/
def pairDevices (env : Env) : DeviceMap → Except Exn Unit
  | [] => .ok ()
  | e :: t =>
    match env.loadDeviceConfiguration e.2.name with
    | .error (.std w) => .error (.std w)
    | _ => pairDevices env t

/-- Member `VPTSensor::processCmdListen`: `catch (Poco::Exception &)` around
both calls. -/
def processCmdListen (env : Env) (m : DeviceMap) : Except Exn Unit × DeviceMap :=
  match detectDevices env m with
  | (.error (.poco _), m1) => (.ok (), m1)
  | (.error (.std w), m1) => (.error (.std w), m1)
  | (.ok _, m1) =>
    match pairDevices env m1 with
    | .error (.poco _) => (.ok (), m1)
    | r => (r, m1)

/-- Member `VPTSensor::parseCmdFromServer`. -/
def parseCmdFromServer (env : Env) (m : DeviceMap) (cmd : Command) :
    Except Exn Unit × DeviceMap :=
  if cmd.state = "update" then (.ok (), updateDeviceWakeUp m cmd.euid cmd.time)
  else if cmd.state = "set" then (processCmdSet env m cmd, m)
  else if cmd.state = "listen" then processCmdListen env m
  else (.ok (), m)

/-- Member `VPTSensor::createMsg`, on the referenced record and the member
`msg`.  The fetch stands outside the inner `try`; the inner handler takes
`Poco::Exception` only. -/
def createMsg (env : Env) (device : VPTDevice) (msg : IOTMessage) :
    Except Exn Bool × VPTDevice × IOTMessage :=
  match env.sendRequest device.ip with
  | .error e => (.error e, device, msg)
  | .ok website =>
    match env.getSensors website with
    | .error (.poco _) => (.ok false, device, msg)
    | .error (.std w) => (.error (.std w), device, msg)
    | .ok values =>
      let sensor : Device :=
        { device.sensor with
          values := values
          pairs := values.length
          device_id := env.getID device.name }
      (.ok true, { device with sensor := sensor }, { msg with device := sensor, time := env.time })

/-- The members of `VPTSensor` that change while it runs, and `sent`, the
messages handed to `sendData` so far, oldest first. -/
structure Driver where
  map_devices : DeviceMap
  msg : IOTMessage
  sent : List IOTMessage
  deriving DecidableEq, Repr

/-- Member `VPTSensor::fetchAndSendMessage` for the iterator at key `k`.  The
outer handler takes `Poco::Exception` only.  (An iterator always designates a
node, so the `none` branch is never taken.) -/
def fetchAndSendMessage (env : Env) (k : Int) (s : Driver) : Except Exn Unit × Driver :=
  match find s.map_devices k with
  | none => (.ok (), s)
  | some device =>
    let built := createMsg env device s.msg
    let s1 : Driver :=
      { s with map_devices := modify s.map_devices k (fun _ => built.2.1), msg := built.2.2 }
    let body : Except Exn Unit × Driver :=
      match built.1 with
      | .error e => (.error e, s1)
      | .ok false => (.ok (), s1)
      | .ok true =>
        let s2 : Driver := { s1 with sent := s1.sent ++ [s1.msg] }
        match env.sendData s1.msg with
        | .error e => (.error e, s2)
        | .ok (false, _) => (.ok (), s2)
        | .ok (true, cmd) =>
          let done := parseCmdFromServer env s2.map_devices cmd
          (done.1, { s2 with map_devices := done.2 })
    match body.1 with
    | .error (.poco _) => (.ok (), body.2)
    | r => (r, body.2)

/-! ## `VPTSensor::run` as a machine

One `step` is one turn of one of the two `for` loops over `map_devices`, or
the passage from the end of a loop to the next one.  The flag
`quit_global_flag` belongs to the host: a run of the thread is a number of
steps, after any of which the host may have stopped it.  Records inserted
while a loop is under way (a `"listen"` reply) are met by `it++` like any
other node. -/

/-- Where `run` stands.  `it` is the key under the loop iterator, `none` for
`end()`. -/
inductive Phase where
  | warmup (it : Option Int)
  | steady (it : Option Int)
  | raised (e : Exn)
  | aborted
  deriving DecidableEq, Repr

/-- State of `run`.  `polls` counts the calls of `fetchAndSendMessage` made so
far; `subs` lists, oldest first, the pair `(next_wakeup, device.time_left)`
read by each executed `device.time_left -= next_wakeup`. -/
structure RunState where
  driver : Driver
  next_wakeup : Nat
  phase : Phase
  polls : Nat
  subs : List (Nat × Nat)
  deriving DecidableEq, Repr

/-- The condition of `assert(next_wakeup >= device.time_left)`, as written. -/
def assertCond (next_wakeup time_left : Nat) : Bool := decide (next_wakeup ≥ time_left)

/-- Line 109 for the record `dev` under key `k`: the `unsigned` subtraction
`device.time_left -= next_wakeup`, with its wrap-around. -/
def subtract (k : Int) (dev : VPTDevice) (r : RunState) : RunState :=
  { r with
    driver :=
      { r.driver with
        map_devices :=
          modify r.driver.map_devices k (fun d =>
            { d with time_left := (d.time_left + 2 ^ 32 - r.next_wakeup) % 2 ^ 32 }) }
    subs := r.subs ++ [(r.next_wakeup, dev.time_left)] }

/-- Lines 108-109 and `it++` for the iterator at key `k`: the assertion
(checked when `debug`, compiled out otherwise), the subtraction, the move to
the next node.  (An iterator always designates a node, so the `none` branch
is never taken.) -/
def finishTurn (debug : Bool) (k : Int) (r : RunState) : RunState :=
  match find r.driver.map_devices k with
  | none => { r with phase := .steady (nextKey r.driver.map_devices k) }
  | some dev =>
    if debug ∧ assertCond r.next_wakeup dev.time_left = false then
      { r with phase := .aborted }
    else
      let r2 := subtract k dev r
      { r2 with phase := .steady (nextKey r2.driver.map_devices k) }

/-- One step of `run`; poll number `i` meets the collaborators `world i`. -/
def step (world : Nat → Env) (debug : Bool) (r : RunState) : RunState :=
  match r.phase with
  | .raised _ => r
  | .aborted => r
  | .warmup none => { r with phase := .steady (beginKey r.driver.map_devices) }
  | .warmup (some k) =>
    match fetchAndSendMessage (world r.polls) k r.driver with
    | (.error e, s1) => { r with driver := s1, polls := r.polls + 1, phase := .raised e }
    | (.ok _, s1) =>
      { r with driver := s1, polls := r.polls + 1, phase := .warmup (nextKey s1.map_devices k) }
  | .steady none =>
    { r with
      next_wakeup := nextWakeup r.driver.map_devices
      phase := .steady (beginKey r.driver.map_devices) }
  | .steady (some k) =>
    match find r.driver.map_devices k with
    | none => finishTurn debug k r
    | some device =>
      if device.time_left = 0 then
        match fetchAndSendMessage (world r.polls) k r.driver with
        | (.error e, s1) => { r with driver := s1, polls := r.polls + 1, phase := .raised e }
        | (.ok _, s1) =>
          finishTurn debug k
            { r with
              driver :=
                { s1 with
                  map_devices :=
                    modify s1.map_devices k (fun dev => { dev with time_left := dev.wake_up_time }) }
              polls := r.polls + 1 }
      else finishTurn debug k r

/-- Lines 92-96: discovery and pairing (met with the collaborators `env0`),
up to the head of the first loop. -/
def start (env0 : Env) (s : Driver) : RunState :=
  match detectDevices env0 s.map_devices with
  | (.error e, m) =>
    { driver := { s with map_devices := m }, next_wakeup := 0, phase := .raised e,
      polls := 0, subs := [] }
  | (.ok _, m) =>
    match pairDevices env0 m with
    | .error e =>
      { driver := { s with map_devices := m }, next_wakeup := 0, phase := .raised e,
        polls := 0, subs := [] }
    | .ok _ =>
      { driver := { s with map_devices := m }, next_wakeup := 0, phase := .warmup (beginKey m),
        polls := 0, subs := [] }

def runSteps (world : Nat → Env) (debug : Bool) : Nat → RunState → RunState
  | 0, r => r
  | n + 1, r => runSteps world debug n (step world debug r)

/-- State of `VPTSensor::run` after `n` steps. -/
def run (env0 : Env) (world : Nat → Env) (debug : Bool) (s : Driver) (n : Nat) : RunState :=
  runSteps world debug n (start env0 s)



/-! ## A concrete installation, used to evaluate the model -/

/-- A default-constructed record with both timers at the default interval. -/
def blankDevice : VPTDevice :=
  { name := "", ip := "",
    sensor := { version := 0, euid := 0, device_id := 0, pairs := 0, values := [] },
    wake_up_time := 15, time_left := 15 }

def noCommand : Command := { state := "", euid := 0, time := 0, values := [] }

/-- Two devices answer, at `10.0.0.1` (content `"A"`) and `10.0.0.2` (content
`"B"`); the locator `10.0.0.9` times out.  The aggregator returns no command. -/
def demoEnv : Env where
  discoverDevices := .ok ["10.0.0.1", "10.0.0.9", "10.0.0.2"]
  sendRequest := fun ip =>
    if ip = "10.0.0.1" then .ok "A"
    else if ip = "10.0.0.2" then .ok "B"
    else .error (.poco "timeout")
  sendRequestTo := fun _ _ => .ok ""
  getParameterValuesFromContent := fun key content =>
    if key = "id" then
      (if content = "A" then .ok "xxxxx0123456789abcdef" else .ok "yyyyy00000000001zzzzz")
    else if content = "A" then .ok "Regulator" else .ok "Boiler"
  getSensors := fun content => if content = "A" then .ok [(1, 20), (2, 35)] else .ok [(7, 1)]
  getID := fun name => if name = "Regulator" then 24 else 25
  generateRequestURL := fun _ _ _ => .ok "/set"
  loadDeviceConfiguration := fun _ => .ok ()
  sendData := fun _ => .ok (false, noCommand)
  time := 1700000000
  newDevice := blankDevice

def demoMsg : IOTMessage :=
  { state := "data", priority := 1, offset := 0, device := blankDevice.sensor, time := 0 }

/-- The driver as its constructor leaves it. -/
def demoDriver : Driver := { map_devices := [], msg := demoMsg, sent := [] }

/-- Three records with countdowns 40, 15 and 100. -/
def threeDevices : DeviceMap :=
  [ (0xA4000001, { blankDevice with time_left := 40 }),
    (0xA4000002, { blankDevice with time_left := 15 }),
    (0xA4000003, { blankDevice with time_left := 100 }) ]

/-- The devices of `demoEnv`, with an aggregator that answers every message by
an `"update"` command of 40 seconds for the device just reported. -/
def updateEnv : Env :=
  { demoEnv with
    sendData := fun msg =>
      .ok (true, { state := "update", euid := msg.device.euid, time := 40, values := [] }) }

/-- The devices of `demoEnv`, with an aggregator that answers every message by
a `"set"` command, for the device just reported, that carries no value. -/
def emptySetEnv : Env :=
  { demoEnv with
    sendData := fun msg =>
      .ok (true, { state := "set", euid := msg.device.euid, time := 0, values := [] }) }

/-- The driver after one discovery in the installation `demoEnv`. -/
def discoveredDriver : Driver :=
  { demoDriver with map_devices := (detectDevices demoEnv []).2 }

/-- A mapping that already holds the euid of the device at `10.0.0.1`, recorded
under another address and name. -/
def staleMap : DeviceMap :=
  [ (0xA456789A, { blankDevice with name := "Old", ip := "10.0.0.7", wake_up_time := 60 }) ]

/-- The three calls of the `try` block of `detectDevices` that can fail all
succeed for the locator `loc`: the fetch, the id parse (giving `id`) and the
name extraction (giving `name`). -/
def Succeeds (env : Env) (loc : String) (id : Int) (name : String) : Prop :=
  ∃ content, env.sendRequest loc = .ok content ∧ parseDeviceId env content = .ok id ∧
    env.getParameterValuesFromContent "device" content = .ok name

/-! ## Invariant of the scheduling loop -/

/-- Every executed subtraction found `next_wakeup ≤ time_left`. -/
def SubsOK (r : RunState) : Prop := ∀ o ∈ r.subs, o.1 ≤ o.2

/-- Either `next_wakeup` is `0`, or the steady-state loop is under way and no
record from the iterator on has a countdown below `next_wakeup`. -/
def Pending (r : RunState) : Prop :=
  r.next_wakeup = 0 ∨
    match r.phase with
    | .steady (some c) =>
      ∀ e ∈ r.driver.map_devices, c ≤ e.1 → r.next_wakeup ≤ e.2.time_left
    | .steady none => True
    | .raised _ => True
    | .aborted => True
    | .warmup _ => False

/-! ## Lemmas on hex digits and `stoul16` -/

theorem char_le_iff (a b : Char) : a ≤ b ↔ a.toNat ≤ b.toNat := Iff.rfl

theorem isHexDigit_range (c : Char) (h : isHexDigit c = true) :
    (48 ≤ c.toNat ∧ c.toNat ≤ 57) ∨ (97 ≤ c.toNat ∧ c.toNat ≤ 102) ∨
      (65 ≤ c.toNat ∧ c.toNat ≤ 70) := by
  unfold isHexDigit hexDigit? at h
  simp only [char_le_iff] at h
  have e0 : '0'.toNat = 48 := rfl
  have e9 : '9'.toNat = 57 := rfl
  have ea : 'a'.toNat = 97 := rfl
  have ef : 'f'.toNat = 102 := rfl
  have eA : 'A'.toNat = 65 := rfl
  have eF : 'F'.toNat = 70 := rfl
  rw [e0, e9, ea, ef, eA, eF] at h
  split at h
  · left; assumption
  · split at h
    · right; left; assumption
    · split at h
      · right; right; assumption
      · simp at h

theorem hexDigit?_getD_lt (c : Char) : (hexDigit? c).getD 0 < 16 := by
  unfold hexDigit?
  simp only [char_le_iff]
  have e0 : '0'.toNat = 48 := rfl
  have e9 : '9'.toNat = 57 := rfl
  have ea : 'a'.toNat = 97 := rfl
  have ef : 'f'.toNat = 102 := rfl
  have eA : 'A'.toNat = 65 := rfl
  have eF : 'F'.toNat = 70 := rfl
  rw [e0, e9, ea, ef, eA, eF]
  split
  · simp only [Option.getD_some]; omega
  · split
    · simp only [Option.getD_some]; omega
    · split
      · simp only [Option.getD_some]; omega
      · simp

theorem isHexDigit_not_space (c : Char) (h : isHexDigit c = true) : isSpace c = false := by
  have hr := isHexDigit_range c h
  unfold isSpace
  have hne : c ≠ ' ' := by
    rintro rfl
    have : ' '.toNat = 32 := rfl
    omega
  simp only [hne, false_or, decide_eq_false_iff_not, not_and, not_le]
  intro h9
  omega

theorem isHexDigit_ne (c d : Char) (h : isHexDigit c = true) (hd : isHexDigit d = false) :
    c ≠ d := by
  rintro rfl
  rw [h] at hd
  cases hd

theorem foldl_hex_lt (cs : List Char) (acc : Nat) :
    cs.foldl (fun acc c => 16 * acc + (hexDigit? c).getD 0) acc < (acc + 1) * 16 ^ cs.length := by
  induction cs generalizing acc with
  | nil => simp
  | cons c t ih =>
    simp only [List.foldl_cons, List.length_cons]
    have hd := hexDigit?_getD_lt c
    have h1 := ih (16 * acc + (hexDigit? c).getD 0)
    have h2 : (16 * acc + (hexDigit? c).getD 0 + 1) * 16 ^ t.length
        ≤ (16 * (acc + 1)) * 16 ^ t.length :=
      Nat.mul_le_mul_right _ (by omega)
    calc _ < _ := h1
      _ ≤ _ := h2
      _ = (acc + 1) * 16 ^ (t.length + 1) := by ring

theorem hexVal_lt (cs : List Char) : hexVal cs < 16 ^ cs.length := by
  have := foldl_hex_lt cs 0
  simpa [hexVal] using this

/-- On a non-empty run of hex digits `stoul16` reads the whole run. -/
theorem stoul16_hex (cs : List Char) (hne : cs ≠ []) (hall : ∀ c ∈ cs, isHexDigit c = true)
    (hlt : hexVal cs < 2 ^ 64) : stoul16 cs = .ok (hexVal cs) := by
  obtain ⟨c, t, rfl⟩ := List.exists_cons_of_ne_nil hne
  have hc : isHexDigit c = true := hall c (List.mem_cons_self _ _)
  have hsp : isSpace c = false := isHexDigit_not_space c hc
  have hminus : c ≠ '-' := isHexDigit_ne c '-' hc rfl
  have hplus : c ≠ '+' := isHexDigit_ne c '+' hc rfl
  have htake : (c :: t).takeWhile isHexDigit = c :: t := by
    rw [List.takeWhile_eq_self_iff]
    exact hall
  have hs3 : (match c :: t with
      | '0' :: x :: d :: t' => if (x = 'x' ∨ x = 'X') ∧ isHexDigit d then d :: t' else c :: t
      | _ => c :: t) = c :: t := by
    split
    · rename_i x d t' heq
      injection heq with h1 h2
      subst h1 h2
      have hx : isHexDigit x = true := hall x (by simp)
      have h1 : x ≠ 'x' := isHexDigit_ne x 'x' hx rfl
      have h2 : x ≠ 'X' := isHexDigit_ne x 'X' hx rfl
      simp [h1, h2]
    · rfl
  unfold stoul16
  simp only [List.dropWhile_cons, hsp]
  have hsigned : (match c :: t with
      | '-' :: t' => (true, t')
      | '+' :: t' => (false, t')
      | _ => (false, c :: t)) = (false, c :: t) := by
    split
    · rename_i t' heq
      injection heq with h1 h2
      exact absurd h1 hminus
    · rename_i t' heq
      injection heq with h1 h2
      exact absurd h1 hplus
    · rfl
  simp only [Bool.false_eq_true, if_false]
  rw [hsigned]
  simp only [hs3, htake]
  rw [if_neg (List.cons_ne_nil c t), if_neg (Nat.not_le.mpr hlt)]
  rfl

theorem tag_lor_eq_add (x : Nat) (hx : x < 2 ^ 24) :
    VPT_ID_PREFIX ||| x = 0xa4000000 + x := by
  have h := Nat.mul_add_lt_is_or hx 0xa4
  have e : (2 ^ 24 * 0xa4 : Nat) = 0xa4000000 := by norm_num
  rw [e] at h
  exact h.symm

/-- C1: when the `"id"` field is a string of at least 16 characters whose
characters 5 through 15 are hex digits, `parseDeviceId` returns
`0xA4000000 | (h & 0x00FFFFFF)` for `h` the base-16 value of those 11
characters; the result is non-negative, below `2 ^ 32`, and its top byte is
`0xA4`. -/
theorem parseDeviceId_euid (env : Env) (content id : String)
    (hid : env.getParameterValuesFromContent "id" content = .ok id)
    (hlen : 16 ≤ id.length)
    (hhex : ∀ c ∈ (id.toList.drop 5).take 11, isHexDigit c = true) :
    parseDeviceId env content
        = .ok (Int.ofNat (0xA4000000 ||| (hexVal ((id.toList.drop 5).take 11) &&& 0x00FFFFFF))) ∧
      (0 : Int) ≤ Int.ofNat (0xA4000000 ||| (hexVal ((id.toList.drop 5).take 11) &&& 0x00FFFFFF)) ∧
      Int.ofNat (0xA4000000 ||| (hexVal ((id.toList.drop 5).take 11) &&& 0x00FFFFFF)) < 2 ^ 32 ∧
      Int.ofNat (0xA4000000 ||| (hexVal ((id.toList.drop 5).take 11) &&& 0x00FFFFFF)) / 2 ^ 24
        = 0xA4 := by
  have hl : id.toList.length = id.length := rfl
  have hlen11 : ((id.toList.drop 5).take 11).length = 11 := by
    simp only [List.length_take, List.length_drop]; omega
  have hne : (id.toList.drop 5).take 11 ≠ [] := by
    intro h; rw [h] at hlen11; simp at hlen11
  have hval : hexVal ((id.toList.drop 5).take 11) < 2 ^ 64 := by
    have := hexVal_lt ((id.toList.drop 5).take 11)
    rw [hlen11] at this
    calc _ < 16 ^ 11 := this
      _ < 2 ^ 64 := by norm_num
  have hsub : substr id.toList 5 11 = .ok ((id.toList.drop 5).take 11) := by
    unfold substr
    rw [if_neg (by omega)]
  have hmask : hexVal ((id.toList.drop 5).take 11) &&& 0x00FFFFFF < 2 ^ 24 :=
    Nat.and_lt_two_pow _ (by norm_num)
  have hor := tag_lor_eq_add _ hmask
  refine ⟨?_, Int.ofNat_zero_le _, ?_, ?_⟩
  · unfold parseDeviceId
    rw [hid]
    simp only [hsub, stoul16_hex _ hne hhex hval]
    rfl
  · have e : (0xA4000000 : Nat) = VPT_ID_PREFIX := rfl
    rw [e, hor]
    simp only [Int.ofNat_eq_coe]
    omega
  · have e : (0xA4000000 : Nat) = VPT_ID_PREFIX := rfl
    rw [e, hor]
    simp only [Int.ofNat_eq_coe]
    omega

theorem parseDeviceId_euid_witness :
    parseDeviceId demoEnv "A" = .ok 0xA456789A ∧
      (parseDeviceId demoEnv "A"
          = .ok (Int.ofNat (0xA4000000 |||
              (hexVal (("xxxxx0123456789abcdef".toList.drop 5).take 11) &&& 0x00FFFFFF))) ∧
        (0 : Int) ≤ Int.ofNat (0xA4000000 |||
              (hexVal (("xxxxx0123456789abcdef".toList.drop 5).take 11) &&& 0x00FFFFFF)) ∧
        Int.ofNat (0xA4000000 |||
              (hexVal (("xxxxx0123456789abcdef".toList.drop 5).take 11) &&& 0x00FFFFFF)) < 2 ^ 32 ∧
        Int.ofNat (0xA4000000 |||
              (hexVal (("xxxxx0123456789abcdef".toList.drop 5).take 11) &&& 0x00FFFFFF)) / 2 ^ 24
          = 0xA4) :=
  ⟨rfl, parseDeviceId_euid demoEnv "A" "xxxxx0123456789abcdef" rfl (by decide) (by decide)⟩

/-! ## The device mapping -/

theorem find_some_mem (m : DeviceMap) (k : Int) (d : VPTDevice) (h : find m k = some d) :
    (k, d) ∈ m := by
  induction m with
  | nil => simp [find] at h
  | cons a t ih =>
    obtain ⟨k', d'⟩ := a
    simp only [find] at h
    by_cases hk : k' = k
    · rw [if_pos hk] at h
      injection h with h
      subst hk h
      exact List.mem_cons_self _ _
    · rw [if_neg hk] at h
      exact List.mem_cons_of_mem _ (ih h)

theorem find_isSome_iff_mem_keys (m : DeviceMap) (k : Int) :
    (find m k).isSome = true ↔ k ∈ keys m := by
  induction m with
  | nil => simp [find, keys]
  | cons a t ih =>
    obtain ⟨k', d'⟩ := a
    simp only [find, keys, List.map_cons, List.mem_cons]
    by_cases hk : k' = k
    · rw [if_pos hk]; simp [hk]
    · rw [if_neg hk]
      have hk2 : ¬ k = k' := fun h => hk h.symm
      simp only [hk2, false_or]
      exact ih

theorem find_cons_eq (k : Int) (d : VPTDevice) (t : DeviceMap) : find ((k, d) :: t) k = some d := by
  simp [find]

theorem find_cons_ne (k0 k : Int) (d : VPTDevice) (t : DeviceMap) (h : k0 ≠ k) :
    find ((k0, d) :: t) k = find t k := by
  simp [find, h]

theorem modify_cons_eq (k : Int) (d : VPTDevice) (t : DeviceMap) (f : VPTDevice → VPTDevice) :
    modify ((k, d) :: t) k f = (k, f d) :: modify t k f := by
  simp [modify]

theorem modify_cons_ne (k0 k : Int) (d : VPTDevice) (t : DeviceMap) (f : VPTDevice → VPTDevice)
    (h : k0 ≠ k) : modify ((k0, d) :: t) k f = (k0, d) :: modify t k f := by
  simp [modify, h]

theorem find_modify_self (m : DeviceMap) (k : Int) (f : VPTDevice → VPTDevice) (d : VPTDevice)
    (h : find m k = some d) : find (modify m k f) k = some (f d) := by
  induction m with
  | nil => simp [find] at h
  | cons a t ih =>
    obtain ⟨k', d'⟩ := a
    by_cases hk : k' = k
    · subst hk
      rw [find_cons_eq] at h
      injection h with h
      subst h
      rw [modify_cons_eq, find_cons_eq]
    · rw [find_cons_ne _ _ _ _ hk] at h
      rw [modify_cons_ne _ _ _ _ _ hk, find_cons_ne _ _ _ _ hk]
      exact ih h

theorem find_modify_ne (m : DeviceMap) (k k' : Int) (f : VPTDevice → VPTDevice)
    (hne : k' ≠ k) : find (modify m k f) k' = find m k' := by
  induction m with
  | nil => rfl
  | cons a t ih =>
    obtain ⟨k0, d0⟩ := a
    by_cases hk : k0 = k
    · subst hk
      have hk' : k0 ≠ k' := fun h => hne h.symm
      rw [modify_cons_eq, find_cons_ne _ _ _ _ hk', find_cons_ne _ _ _ _ hk', ih]
    · rw [modify_cons_ne _ _ _ _ _ hk]
      by_cases hk' : k0 = k'
      · subst hk'
        rw [find_cons_eq, find_cons_eq]
      · rw [find_cons_ne _ _ _ _ hk', find_cons_ne _ _ _ _ hk', ih]

theorem mem_modify_ne (m : DeviceMap) (k : Int) (f : VPTDevice → VPTDevice)
    (e : Int × VPTDevice) (he : e ∈ modify m k f) (hne : e.1 ≠ k) : e ∈ m := by
  simp only [modify, List.mem_map] at he
  obtain ⟨a, ha, rfl⟩ := he
  by_cases hk : a.1 = k
  · rw [if_pos hk] at hne
    exact absurd hk hne
  · rw [if_neg hk]
    exact ha

theorem keys_modify (m : DeviceMap) (k : Int) (f : VPTDevice → VPTDevice) :
    keys (modify m k f) = keys m := by
  simp only [keys, modify, List.map_map]
  apply List.map_congr_left
  intro a _
  simp only [Function.comp]
  split <;> rfl

theorem find_orderedInsert_self (m : DeviceMap) (k : Int) (d : VPTDevice)
    (h : find m k = none) : find (orderedInsert k d m) k = some d := by
  induction m with
  | nil => simp [orderedInsert, find]
  | cons a t ih =>
    obtain ⟨k', d'⟩ := a
    have hk : k' ≠ k := by
      intro hk
      subst hk
      rw [find_cons_eq] at h
      cases h
    rw [find_cons_ne _ _ _ _ hk] at h
    unfold orderedInsert
    split
    · exact find_cons_eq _ _ _
    · rw [find_cons_ne _ _ _ _ hk]
      exact ih h

theorem find_orderedInsert_ne (m : DeviceMap) (k k' : Int) (d : VPTDevice) (hne : k ≠ k') :
    find (orderedInsert k d m) k' = find m k' := by
  induction m with
  | nil => simp [orderedInsert, find, hne]
  | cons a t ih =>
    obtain ⟨k0, d0⟩ := a
    unfold orderedInsert
    split
    · exact find_cons_ne _ _ _ _ hne
    · by_cases hk : k0 = k'
      · subst hk
        rw [find_cons_eq, find_cons_eq]
      · rw [find_cons_ne _ _ _ _ hk, find_cons_ne _ _ _ _ hk]
        exact ih

theorem insert_present (m : DeviceMap) (k : Int) (d : VPTDevice)
    (h : (find m k).isSome = true) : insert m k d = m := by
  unfold insert
  rw [if_pos h]

theorem find_insert_self (m : DeviceMap) (k : Int) (d : VPTDevice) :
    find (insert m k d) k = some ((find m k).getD d) := by
  unfold insert
  cases hf : find m k with
  | none =>
    simp only [Option.isSome_none, Bool.false_eq_true, if_false, Option.getD_none]
    exact find_orderedInsert_self m k d hf
  | some d0 => simp [hf]

theorem find_insert_ne (m : DeviceMap) (k k' : Int) (d : VPTDevice) (hne : k ≠ k') :
    find (insert m k d) k' = find m k' := by
  unfold insert
  split
  · rfl
  · exact find_orderedInsert_ne m k k' d hne

theorem find_insert_of_some (m : DeviceMap) (k k' : Int) (d d0 : VPTDevice)
    (h : find m k' = some d0) : find (insert m k d) k' = some d0 := by
  by_cases hk : k = k'
  · subst hk
    rw [find_insert_self, h]
    rfl
  · rw [find_insert_ne m k k' d hk, h]

theorem mem_keys_orderedInsert (m : DeviceMap) (k x : Int) (d : VPTDevice) :
    x ∈ keys (orderedInsert k d m) ↔ x = k ∨ x ∈ keys m := by
  induction m with
  | nil => simp [orderedInsert, keys]
  | cons a t ih =>
    obtain ⟨k0, d0⟩ := a
    unfold orderedInsert
    split
    · simp [keys]
    · simp only [keys, List.map_cons, List.mem_cons] at ih ⊢
      rw [ih]
      tauto

theorem wellFormed_orderedInsert (m : DeviceMap) (k : Int) (d : VPTDevice)
    (hw : WellFormed m) (h : find m k = none) : WellFormed (orderedInsert k d m) := by
  induction m with
  | nil => simp [orderedInsert, WellFormed, keys]
  | cons a t ih =>
    obtain ⟨k0, d0⟩ := a
    have hk : k0 ≠ k := by
      intro hk
      subst hk
      rw [find_cons_eq] at h
      cases h
    rw [find_cons_ne _ _ _ _ hk] at h
    have hw' : (k0 :: keys t).Pairwise (fun a b => a < b) := hw
    rw [List.pairwise_cons] at hw'
    unfold orderedInsert
    split
    · rename_i hlt
      show (k :: k0 :: keys t).Pairwise (fun a b => a < b)
      rw [List.pairwise_cons]
      refine ⟨?_, hw⟩
      intro x hx
      rw [List.mem_cons] at hx
      rcases hx with hx | hx
      · rw [hx]; exact hlt
      · exact lt_trans hlt (hw'.1 x hx)
    · rename_i hlt
      show (k0 :: keys (orderedInsert k d t)).Pairwise (fun a b => a < b)
      rw [List.pairwise_cons]
      refine ⟨?_, ih hw'.2 h⟩
      intro x hx
      rw [mem_keys_orderedInsert] at hx
      rcases hx with hx | hx
      · rw [hx]; omega
      · exact hw'.1 x hx

theorem wellFormed_insert (m : DeviceMap) (k : Int) (d : VPTDevice) (hw : WellFormed m) :
    WellFormed (insert m k d) := by
  unfold insert
  cases hf : find m k with
  | none =>
    simp only [Option.isSome_none, Bool.false_eq_true, if_false]
    exact wellFormed_orderedInsert m k d hw hf
  | some d0 => simpa using hw

theorem wellFormed_nodup (m : DeviceMap) (hw : WellFormed m) : (keys m).Nodup :=
  List.Pairwise.imp (fun h => ne_of_lt h) hw

/-! ## `nextWakeup` -/

theorem foldl_min_le (m : DeviceMap) (acc : Nat) :
    m.foldl (fun min_time e => if e.2.time_left < min_time then e.2.time_left else min_time) acc
        ≤ acc ∧
      ∀ e ∈ m,
        m.foldl (fun min_time e => if e.2.time_left < min_time then e.2.time_left else min_time)
          acc ≤ e.2.time_left := by
  induction m generalizing acc with
  | nil => simp
  | cons a t ih =>
    simp only [List.foldl_cons, List.mem_cons, forall_eq_or_imp]
    have h := ih (if a.2.time_left < acc then a.2.time_left else acc)
    refine ⟨?_, ?_, h.2⟩
    · have h1 := h.1
      by_cases hlt : a.2.time_left < acc
      · rw [if_pos hlt] at h1 ⊢; omega
      · rw [if_neg hlt] at h1 ⊢; omega
    · have h1 := h.1
      by_cases hlt : a.2.time_left < acc
      · rw [if_pos hlt] at h1 ⊢; omega
      · rw [if_neg hlt] at h1 ⊢; omega

theorem foldl_min_mem (m : DeviceMap) (acc : Nat) :
    m.foldl (fun min_time e => if e.2.time_left < min_time then e.2.time_left else min_time) acc
        = acc ∨
      ∃ e ∈ m,
        m.foldl (fun min_time e => if e.2.time_left < min_time then e.2.time_left else min_time)
          acc = e.2.time_left := by
  induction m generalizing acc with
  | nil => simp
  | cons a t ih =>
    simp only [List.foldl_cons, List.mem_cons, exists_eq_or_imp]
    rcases ih (if a.2.time_left < acc then a.2.time_left else acc) with h | ⟨e, he, h⟩
    · by_cases hlt : a.2.time_left < acc
      · rw [if_pos hlt] at h ⊢
        exact Or.inr (Or.inl h)
      · rw [if_neg hlt] at h ⊢
        exact Or.inl h
    · exact Or.inr (Or.inr ⟨e, he, h⟩)

theorem nextWakeup_le (m : DeviceMap) : ∀ e ∈ m, nextWakeup m ≤ e.2.time_left :=
  (foldl_min_le m UINT_MAX).2

/-- C8: `nextWakeup` returns the least `time_left` of the mapping (it is below
or equal to every device's `time_left` and is the `time_left` of some device)
when the mapping is not empty, and `4294967295` for the empty mapping.  The
countdowns are `unsigned int` values. -/
theorem nextWakeup_min (m : DeviceMap) (hu : ∀ e ∈ m, e.2.time_left < 2 ^ 32) :
    (m ≠ [] →
        (∀ e ∈ m, nextWakeup m ≤ e.2.time_left) ∧ ∃ e ∈ m, nextWakeup m = e.2.time_left) ∧
      nextWakeup [] = 4294967295 := by
  refine ⟨fun hne => ⟨nextWakeup_le m, ?_⟩, rfl⟩
  rcases foldl_min_mem m UINT_MAX with h | h
  · obtain ⟨a, t, rfl⟩ := List.exists_cons_of_ne_nil hne
    refine ⟨a, List.mem_cons_self _ _, ?_⟩
    have h1 := nextWakeup_le (a :: t) a (List.mem_cons_self _ _)
    have h2 := hu a (List.mem_cons_self _ _)
    have h3 : nextWakeup (a :: t) = UINT_MAX := h
    have h4 : UINT_MAX = 4294967295 := rfl
    omega
  · exact h

theorem nextWakeup_min_witness :
    nextWakeup threeDevices = 15 ∧
      ((threeDevices ≠ [] →
          (∀ e ∈ threeDevices, nextWakeup threeDevices ≤ e.2.time_left) ∧
            ∃ e ∈ threeDevices, nextWakeup threeDevices = e.2.time_left) ∧
        nextWakeup [] = 4294967295) :=
  ⟨by decide, nextWakeup_min threeDevices (by decide)⟩

/-! ## Command dispatch -/

/-- C5: an `"update"` command for a known device leaves that device with
`wake_up_time` and `time_left` both equal to `max cmd.time 15`, whatever the
command's `time`; the interval is therefore never below 15. -/
theorem update_sets_wake_up (env : Env) (m : DeviceMap) (cmd : Command) (d : VPTDevice)
    (hs : cmd.state = "update") (hf : find m cmd.euid = some d) :
    (parseCmdFromServer env m cmd).1 = .ok () ∧
      find (parseCmdFromServer env m cmd).2 cmd.euid
        = some { d with wake_up_time := max cmd.time 15, time_left := max cmd.time 15 } ∧
      15 ≤ max cmd.time 15 := by
  have hmax : (if cmd.time < VPT_DEFAULT_WAKEUP_TIME then VPT_DEFAULT_WAKEUP_TIME else cmd.time)
      = max cmd.time 15 := by
    unfold VPT_DEFAULT_WAKEUP_TIME
    split <;> omega
  refine ⟨?_, ?_, le_max_right _ _⟩
  · simp [parseCmdFromServer, hs]
  · simp only [parseCmdFromServer, hs, if_true, updateDeviceWakeUp, hf]
    rw [find_modify_self m cmd.euid _ d hf, hmax]

theorem update_sets_wake_up_witness :
    ((parseCmdFromServer demoEnv threeDevices
          { state := "update", euid := 0xA4000002, time := 5, values := [] }).1 = .ok () ∧
        find (parseCmdFromServer demoEnv threeDevices
          { state := "update", euid := 0xA4000002, time := 5, values := [] }).2 0xA4000002
          = some { blankDevice with wake_up_time := 15, time_left := 15 } ∧
        15 ≤ max 5 15) ∧
      ((parseCmdFromServer demoEnv threeDevices
          { state := "update", euid := 0xA4000002, time := 40, values := [] }).1 = .ok () ∧
        find (parseCmdFromServer demoEnv threeDevices
          { state := "update", euid := 0xA4000002, time := 40, values := [] }).2 0xA4000002
          = some { blankDevice with wake_up_time := 40, time_left := 40 } ∧
        15 ≤ max 40 15) :=
  ⟨update_sets_wake_up demoEnv threeDevices
      { state := "update", euid := 0xA4000002, time := 5, values := [] }
      { blankDevice with time_left := 15 } rfl rfl,
    update_sets_wake_up demoEnv threeDevices
      { state := "update", euid := 0xA4000002, time := 40, values := [] }
      { blankDevice with time_left := 15 } rfl rfl⟩

/-! ## The scheduling loop -/

theorem nextKey_gt (m : DeviceMap) (k c : Int) (h : nextKey m k = some c) : k < c := by
  unfold nextKey at h
  cases hf : m.find? (fun e => decide (k < e.1)) with
  | none => rw [hf] at h; simp at h
  | some e =>
    rw [hf] at h
    simp only [Option.map_some', Option.some.injEq] at h
    have := List.find?_some hf
    simp only [decide_eq_true_eq] at this
    omega

theorem pending_advance (m m' : DeviceMap) (nw : Nat) (kk : Int)
    (hm : ∀ e ∈ m', e.1 ≠ kk → e ∈ m)
    (h : ∀ e ∈ m, kk ≤ e.1 → nw ≤ e.2.time_left) :
    match Phase.steady (nextKey m' kk) with
    | .steady (some c) => ∀ e ∈ m', c ≤ e.1 → nw ≤ e.2.time_left
    | .steady none => True
    | .raised _ => True
    | .aborted => True
    | .warmup _ => False := by
  cases hn : nextKey m' kk with
  | none => trivial
  | some c =>
    have hgt := nextKey_gt m' kk c hn
    intro e he hc
    exact h e (hm e he (by omega)) (by omega)

theorem mem_subtract_ne (k : Int) (dev : VPTDevice) (r : RunState) (e : Int × VPTDevice)
    (he : e ∈ (subtract k dev r).driver.map_devices) (hne : e.1 ≠ k) :
    e ∈ r.driver.map_devices := by
  simp only [subtract] at he
  exact mem_modify_ne _ _ _ e he hne

theorem finishTurn_zero (debug : Bool) (k : Int) (r : RunState)
    (hs : SubsOK r) (hz : r.next_wakeup = 0) :
    SubsOK (finishTurn debug k r) ∧ Pending (finishTurn debug k r) := by
  unfold finishTurn
  split
  · exact ⟨hs, Or.inl hz⟩
  · split
    · exact ⟨hs, Or.inl hz⟩
    · refine ⟨?_, Or.inl hz⟩
      intro o ho
      simp only [subtract, List.mem_append, List.mem_singleton] at ho
      rcases ho with ho | ho
      · exact hs o ho
      · rw [ho, hz]
        exact Nat.zero_le _

theorem finishTurn_pending (debug : Bool) (k : Int) (r : RunState) (hs : SubsOK r)
    (hp : ∀ e ∈ r.driver.map_devices, k ≤ e.1 → r.next_wakeup ≤ e.2.time_left) :
    SubsOK (finishTurn debug k r) ∧ Pending (finishTurn debug k r) := by
  unfold finishTurn
  split
  · exact ⟨hs, Or.inr (pending_advance _ _ _ k (fun e he _ => he) hp)⟩
  · rename_i dev hfind
    have hle := hp (k, dev) (find_some_mem _ _ _ hfind) (le_refl _)
    split
    · exact ⟨hs, Or.inr trivial⟩
    · refine ⟨?_, Or.inr ?_⟩
      · intro o ho
        simp only [subtract, List.mem_append, List.mem_singleton] at ho
        rcases ho with ho | ho
        · exact hs o ho
        · rw [ho]
          exact hle
      · exact pending_advance _ _ _ k
          (fun e he hne => mem_subtract_ne k dev r e he hne) hp

theorem step_inv (world : Nat → Env) (debug : Bool) (r : RunState)
    (hs : SubsOK r) (hp : Pending r) :
    SubsOK (step world debug r) ∧ Pending (step world debug r) := by
  unfold step
  split
  · exact ⟨hs, hp⟩
  · exact ⟨hs, hp⟩
  · rename_i hph
    have hz : r.next_wakeup = 0 := by
      rcases hp with h | h
      · exact h
      · rw [hph] at h; exact absurd h id
    exact ⟨hs, Or.inl hz⟩
  · rename_i k hph
    have hz : r.next_wakeup = 0 := by
      rcases hp with h | h
      · exact h
      · rw [hph] at h; exact absurd h id
    split
    · exact ⟨hs, Or.inl hz⟩
    · exact ⟨hs, Or.inl hz⟩
  · refine ⟨hs, Or.inr ?_⟩
    cases hb : beginKey r.driver.map_devices with
    | none => trivial
    | some c =>
      intro e he _
      exact nextWakeup_le _ e he
  · rename_i k hph
    have hp' : r.next_wakeup = 0 ∨
        ∀ e ∈ r.driver.map_devices, k ≤ e.1 → r.next_wakeup ≤ e.2.time_left := by
      rcases hp with h | h
      · exact Or.inl h
      · rw [hph] at h; exact Or.inr h
    rcases hp' with hz | hpend
    · -- `next_wakeup = 0`: every subtraction is by `0`
      split
      · exact finishTurn_zero debug k r hs hz
      · split
        · split
          · exact ⟨hs, Or.inl hz⟩
          · exact finishTurn_zero debug k _ hs hz
        · exact finishTurn_zero debug k r hs hz
    · -- no countdown from the iterator on is below `next_wakeup`
      by_cases hz : r.next_wakeup = 0
      · split
        · exact finishTurn_zero debug k r hs hz
        · split
          · split
            · exact ⟨hs, Or.inl hz⟩
            · exact finishTurn_zero debug k _ hs hz
          · exact finishTurn_zero debug k r hs hz
      · split
        · exact finishTurn_pending debug k r hs hpend
        · rename_i device hfind
          have hle := hpend (k, device) (find_some_mem _ _ _ hfind) (le_refl _)
          have hnz : device.time_left ≠ 0 := by
            simp only at hle; omega
          rw [if_neg hnz]
          exact finishTurn_pending debug k r hs hpend

theorem runSteps_inv (world : Nat → Env) (debug : Bool) (n : Nat) (r : RunState)
    (hs : SubsOK r) (hp : Pending r) :
    SubsOK (runSteps world debug n r) ∧ Pending (runSteps world debug n r) := by
  induction n generalizing r with
  | zero => exact ⟨hs, hp⟩
  | succ n ih =>
    have h := step_inv world debug r hs hp
    exact ih _ h.1 h.2

theorem start_inv (env0 : Env) (s : Driver) : SubsOK (start env0 s) ∧ Pending (start env0 s) := by
  unfold start
  split
  · exact ⟨fun o ho => absurd ho (List.not_mem_nil o), Or.inl rfl⟩
  · split
    · exact ⟨fun o ho => absurd ho (List.not_mem_nil o), Or.inl rfl⟩
    · exact ⟨fun o ho => absurd ho (List.not_mem_nil o), Or.inl rfl⟩

/-- C2: in `run`, started with `next_wakeup = 0` on the mapping that discovery
produced, whatever the collaborators and the aggregator answer at each poll,
every executed `device.time_left -= next_wakeup` finds
`next_wakeup ≤ device.time_left`, so the `unsigned` subtraction does not wrap
around: its result is the exact difference. -/
theorem run_subtraction_never_wraps (env0 : Env) (world : Nat → Env) (debug : Bool)
    (s : Driver) (n : Nat) :
    ∀ o ∈ (run env0 world debug s n).subs,
      o.1 ≤ o.2 ∧ (o.2 + 2 ^ 32 - o.1) % 2 ^ 32 = (o.2 - o.1) % 2 ^ 32 := by
  intro o ho
  have h := (runSteps_inv world debug n (start env0 s) (start_inv env0 s).1 (start_inv env0 s).2).1
  have hle : o.1 ≤ o.2 := h o ho
  refine ⟨hle, ?_⟩
  have e : o.2 + 2 ^ 32 - o.1 = (o.2 - o.1) + 2 ^ 32 := by omega
  rw [e, Nat.add_mod_right]

theorem run_subtraction_never_wraps_witness :
    (40, 40) ∈ (run demoEnv (fun _ => updateEnv) false demoDriver 12).subs ∧
      ((40, 40).1 ≤ (40, 40).2 ∧
        ((40, 40).2 + 2 ^ 32 - (40, 40).1) % 2 ^ 32 = ((40, 40).2 - (40, 40).1) % 2 ^ 32) :=
  ⟨by decide,
    run_subtraction_never_wraps demoEnv (fun _ => updateEnv) false demoDriver 12 (40, 40)
      (by decide)⟩

/-- C3: with the assertion compiled in, `run` aborts on the first turn of the
steady-state loop.  After the three steps of the initial pass the iterator
stands on the first device, `next_wakeup` is `0` and the device's countdown
is `40`, so `next_wakeup ≤ time_left` holds; the condition the code asserts,
`next_wakeup >= device.time_left`, is false there. -/
theorem assertion_aborts_first_turn :
    (run demoEnv (fun _ => updateEnv) true demoDriver 3).phase = .steady (some 0xA4000001) ∧
      (run demoEnv (fun _ => updateEnv) true demoDriver 3).next_wakeup = 0 ∧
      (find (run demoEnv (fun _ => updateEnv) true demoDriver 3).driver.map_devices
          0xA4000001).map (fun d => d.time_left) = some 40 ∧
      assertCond 0 40 = false ∧
      (run demoEnv (fun _ => updateEnv) true demoDriver 4).phase = .aborted ∧
      (run demoEnv (fun _ => updateEnv) true demoDriver 4).subs = [] :=
  ⟨by rfl, by rfl, by rfl, by rfl, by rfl, by rfl⟩

/-! ## `fetchAndSendMessage` -/

/-- C4: a `"set"` reply without values for a known device makes
`fetchAndSendMessage` leave by `std::out_of_range`, which its
`catch (Poco::Exception &)` does not take; `run` ends with that exception at
its first poll. -/
theorem fetchAndSendMessage_propagates_out_of_range :
    (fetchAndSendMessage emptySetEnv 0xA456789A discoveredDriver).1
        = .error (.std "out_of_range") ∧
      (run demoEnv (fun _ => emptySetEnv) false demoDriver 1).phase
        = .raised (.std "out_of_range") :=
  ⟨by rfl, by rfl⟩

theorem fetchAndSendMessage_sent (env : Env) (k : Int) (s : Driver) (d : VPTDevice)
    (hf : find s.map_devices k = some d) :
    (fetchAndSendMessage env k s).2.sent =
      match (createMsg env d s.msg).1 with
      | .ok true => s.sent ++ [(createMsg env d s.msg).2.2]
      | _ => s.sent := by
  unfold fetchAndSendMessage
  simp only [hf]
  cases hb : (createMsg env d s.msg).1 with
  | error e => cases e <;> rfl
  | ok b =>
    cases b with
    | false => rfl
    | true =>
      simp only
      cases hsd : env.sendData (createMsg env d s.msg).2.2 with
      | error e => cases e <;> rfl
      | ok p =>
        obtain ⟨flag, cmd⟩ := p
        cases flag with
        | false => rfl
        | true =>
          simp only
          cases hd : (parseCmdFromServer env
              (modify s.map_devices k fun _ => (createMsg env d s.msg).2.1) cmd).1 with
          | error e => cases e <;> rfl
          | ok u => rfl

/-- C10: when the fetch of a device `d` succeeds and `getSensors` returns the
readings `v`, `createMsg` succeeds and the message carries `values = v`,
`pairs = length v`, the device's `euid`, `device_id = getID d.name` and the
current time; `fetchAndSendMessage` on that device hands exactly this message
to `sendData`; and whenever `createMsg` does not succeed, nothing is handed
to `sendData`. -/
theorem createMsg_payload (env : Env) (d : VPTDevice) (msg : IOTMessage) (website : String)
    (v : List (Int × FloatCode))
    (hfetch : env.sendRequest d.ip = .ok website) (hv : env.getSensors website = .ok v) :
    (createMsg env d msg).1 = .ok true ∧
      (createMsg env d msg).2.2.device.values = v ∧
      (createMsg env d msg).2.2.device.pairs = v.length ∧
      (createMsg env d msg).2.2.device.euid = d.sensor.euid ∧
      (createMsg env d msg).2.2.device.device_id = env.getID d.name ∧
      (createMsg env d msg).2.2.time = env.time ∧
      (∀ (k : Int) (s : Driver), find s.map_devices k = some d → s.msg = msg →
        (fetchAndSendMessage env k s).2.sent = s.sent ++ [(createMsg env d msg).2.2]) ∧
      (∀ (env' : Env) (k : Int) (s : Driver) (d' : VPTDevice),
        find s.map_devices k = some d' → (createMsg env' d' s.msg).1 ≠ .ok true →
        (fetchAndSendMessage env' k s).2.sent = s.sent) := by
  have hc : createMsg env d msg =
      (.ok true,
        { d with sensor := { d.sensor with
            values := v, pairs := v.length, device_id := env.getID d.name } },
        { msg with
          device := { d.sensor with
            values := v, pairs := v.length, device_id := env.getID d.name },
          time := env.time }) := by
    simp only [createMsg, hfetch, hv]
  refine ⟨by rw [hc], by rw [hc], by rw [hc], by rw [hc], by rw [hc], by rw [hc], ?_, ?_⟩
  · intro k s hf hm
    rw [fetchAndSendMessage_sent env k s d hf, hm, hc]
  · intro env' k s d' hf hne
    rw [fetchAndSendMessage_sent env' k s d' hf]
    split
    · rename_i h; exact absurd h hne
    · rfl

theorem createMsg_payload_witness :
    (createMsg demoEnv
        { blankDevice with ip := "10.0.0.1", name := "Regulator" } demoMsg).2.2.device.values
        = [(1, 20), (2, 35)] ∧
      (createMsg demoEnv
        { blankDevice with ip := "10.0.0.1", name := "Regulator" } demoMsg).2.2.device.pairs = 2 ∧
      (createMsg demoEnv
        { blankDevice with ip := "10.0.0.1", name := "Regulator" } demoMsg).1 = .ok true :=
  have h := createMsg_payload demoEnv { blankDevice with ip := "10.0.0.1", name := "Regulator" }
    demoMsg "A" [(1, 20), (2, 35)] rfl rfl
  ⟨h.2.1, h.2.2.1, h.1⟩

/-! ## `detectDevices` -/

theorem succeeds_unique (env : Env) (loc : String) (id id' : Int) (name name' : String)
    (h : Succeeds env loc id name) (h' : Succeeds env loc id' name') :
    id = id' ∧ name = name' := by
  obtain ⟨c, hc, hi, hn⟩ := h
  obtain ⟨c', hc', hi', hn'⟩ := h'
  rw [hc] at hc'
  injection hc' with hc'
  subst hc'
  rw [hi] at hi'
  rw [hn] at hn'
  injection hi' with hi'
  injection hn' with hn'
  exact ⟨hi', hn'⟩

theorem detectStep_of_succeeds (env : Env) (acc : VPTDevice × DeviceMap) (loc : String)
    (id : Int) (name : String) (h : Succeeds env loc id name) :
    detectStep env acc loc
      = (fillRecord env acc.1 loc id name, insert acc.2 id (fillRecord env acc.1 loc id name)) := by
  obtain ⟨c, hc, hi, hn⟩ := h
  simp only [detectStep, hc, hi, hn]

theorem detectStep_cases (env : Env) (acc : VPTDevice × DeviceMap) (loc : String) :
    detectStep env acc loc = acc ∨ ∃ id name, Succeeds env loc id name := by
  unfold detectStep
  split
  · exact Or.inl rfl
  · rename_i content hc
    split
    · exact Or.inl rfl
    · rename_i id hi
      split
      · exact Or.inl rfl
      · rename_i name hn
        exact Or.inr ⟨id, name, content, hc, hi, hn⟩

theorem detectStep_keeps (env : Env) (acc : VPTDevice × DeviceMap) (loc : String) (k : Int)
    (d : VPTDevice) (h : find acc.2 k = some d) : find (detectStep env acc loc).2 k = some d := by
  rcases detectStep_cases env acc loc with he | ⟨id, name, hs⟩
  · rw [he]; exact h
  · rw [detectStep_of_succeeds env acc loc id name hs]
    exact find_insert_of_some _ _ _ _ _ h

theorem detectFold_keeps (env : Env) (l : List String) (acc : VPTDevice × DeviceMap) (k : Int)
    (d : VPTDevice) (h : find acc.2 k = some d) :
    find (l.foldl (detectStep env) acc).2 k = some d := by
  induction l generalizing acc with
  | nil => exact h
  | cons a t ih =>
    rw [List.foldl_cons]
    exact ih _ (detectStep_keeps env acc a k d h)

theorem detectFold_finds (env : Env) (l : List String) (acc : VPTDevice × DeviceMap)
    (loc : String) (id : Int) (name : String) (hl : loc ∈ l) (hs : Succeeds env loc id name) :
    (find (l.foldl (detectStep env) acc).2 id).isSome = true := by
  induction l generalizing acc with
  | nil => cases hl
  | cons a t ih =>
    rw [List.foldl_cons]
    rw [List.mem_cons] at hl
    rcases hl with hl | hl
    · subst hl
      have h1 : ∃ d, find (detectStep env acc loc).2 id = some d := by
        rw [detectStep_of_succeeds env acc loc id name hs]
        exact ⟨_, find_insert_self _ _ _⟩
      obtain ⟨d, hd⟩ := h1
      rw [detectFold_keeps env t _ id d hd]
      rfl
    · exact ih _ hl

theorem detectFold_fixed (env : Env) (l : List String) (acc : VPTDevice × DeviceMap)
    (h : ∀ loc ∈ l, ∀ id name, Succeeds env loc id name → (find acc.2 id).isSome = true) :
    (l.foldl (detectStep env) acc).2 = acc.2 := by
  induction l generalizing acc with
  | nil => rfl
  | cons a t ih =>
    rw [List.foldl_cons]
    have hstep : (detectStep env acc a).2 = acc.2 := by
      rcases detectStep_cases env acc a with he | ⟨id, name, hs⟩
      · rw [he]
      · rw [detectStep_of_succeeds env acc a id name hs]
        exact insert_present _ _ _ (h a (List.mem_cons_self _ _) id name hs)
    rw [ih (detectStep env acc a), hstep]
    intro loc hloc id name hs
    rw [hstep]
    exact h loc (List.mem_cons_of_mem _ hloc) id name hs

theorem detectFold_wellFormed (env : Env) (l : List String) (acc : VPTDevice × DeviceMap)
    (hw : WellFormed acc.2) : WellFormed (l.foldl (detectStep env) acc).2 := by
  induction l generalizing acc with
  | nil => exact hw
  | cons a t ih =>
    rw [List.foldl_cons]
    apply ih
    rcases detectStep_cases env acc a with he | ⟨id, name, hs⟩
    · rw [he]; exact hw
    · rw [detectStep_of_succeeds env acc a id name hs]
      exact wellFormed_insert _ _ _ hw

theorem detectFold_record (env : Env) (l : List String) (acc : VPTDevice × DeviceMap)
    (loc : String) (id : Int) (name : String)
    (huniq : ∀ loc' ∈ l, ∀ name', Succeeds env loc' id name' → loc' = loc ∧ name' = name)
    (h : ∀ d, find acc.2 id = some d → d.ip = loc ∧ d.name = name ∧ d.sensor.euid = id) :
    ∀ d, find (l.foldl (detectStep env) acc).2 id = some d →
      d.ip = loc ∧ d.name = name ∧ d.sensor.euid = id := by
  induction l generalizing acc with
  | nil => exact h
  | cons a t ih =>
    rw [List.foldl_cons]
    apply ih
    · intro loc' hl name' hs
      exact huniq loc' (List.mem_cons_of_mem _ hl) name' hs
    · intro d hd
      rcases detectStep_cases env acc a with he | ⟨id', name', hs⟩
      · rw [he] at hd; exact h d hd
      · rw [detectStep_of_succeeds env acc a id' name' hs] at hd
        simp only at hd
        by_cases hk : id' = id
        · subst hk
          obtain ⟨hloc, hname⟩ := huniq a (List.mem_cons_self _ _) name' hs
          rw [find_insert_self] at hd
          injection hd with hd
          cases hf : find acc.2 id' with
          | none =>
            rw [hf] at hd
            simp only [Option.getD_none] at hd
            rw [← hd]
            exact ⟨hloc, hname, rfl⟩
          | some d0 =>
            rw [hf] at hd
            simp only [Option.getD_some] at hd
            rw [← hd]
            exact h d0 hf
        · rw [find_insert_ne _ _ _ _ hk] at hd
          exact h d hd

/-- C7: whatever candidates fail and wherever they stand in the list,
`detectDevices` returns normally and the mapping then holds the euid of every
candidate whose fetch, id parse and name extraction succeeded. -/
theorem detectDevices_isolates_failures (env : Env) (m : DeviceMap) (devices : List String)
    (hd : env.discoverDevices = .ok devices) :
    (detectDevices env m).1 = .ok () ∧
      ∀ loc ∈ devices, ∀ (content : String) (id : Int) (name : String),
        env.sendRequest loc = .ok content → parseDeviceId env content = .ok id →
        env.getParameterValuesFromContent "device" content = .ok name →
        isVPTSensor (detectDevices env m).2 id = true := by
  simp only [detectDevices, hd, true_and]
  intro loc hloc content id name hc hi hn
  exact detectFold_finds env devices _ loc id name hloc ⟨content, hc, hi, hn⟩

theorem detectDevices_isolates_failures_witness :
    (detectDevices demoEnv []).1 = .ok () ∧
      isVPTSensor (detectDevices demoEnv []).2 0xA456789A = true ∧
      isVPTSensor (detectDevices demoEnv []).2 0xA4000001 = true :=
  have h := detectDevices_isolates_failures demoEnv [] ["10.0.0.1", "10.0.0.9", "10.0.0.2"] rfl
  ⟨h.1, h.2 "10.0.0.1" (by decide) "A" 0xA456789A "Regulator" rfl rfl rfl,
    h.2 "10.0.0.2" (by decide) "B" 0xA4000001 "Boiler" rfl rfl rfl⟩

/-- C6, as stated, fails: the candidate `10.0.0.1` is fetched, parsed (euid
`0xA456789A`, derived from no other candidate) and named `"Regulator"`, yet
after `detectDevices` the record stored under that euid, which was present
before the pass, still has the address `10.0.0.7` and the name `"Old"`. -/
theorem detectDevices_update_counterexample :
    demoEnv.discoverDevices = .ok ["10.0.0.1", "10.0.0.9", "10.0.0.2"] ∧
      demoEnv.sendRequest "10.0.0.1" = .ok "A" ∧
      parseDeviceId demoEnv "A" = .ok 0xA456789A ∧
      demoEnv.getParameterValuesFromContent "device" "A" = .ok "Regulator" ∧
      (∀ loc' ∈ ["10.0.0.1", "10.0.0.9", "10.0.0.2"], loc' ≠ "10.0.0.1" →
        ∀ content', demoEnv.sendRequest loc' = .ok content' →
          parseDeviceId demoEnv content' ≠ .ok 0xA456789A) ∧
      (find (detectDevices demoEnv staleMap).2 0xA456789A).map (fun d => (d.ip, d.name))
        = some ("10.0.0.7", "Old") ∧
      ¬ ∃ d, find (detectDevices demoEnv staleMap).2 0xA456789A = some d ∧
          d.ip = "10.0.0.1" ∧ d.name = "Regulator" := by
  refine ⟨rfl, rfl, rfl, rfl, ?_, by rfl, ?_⟩
  · intro loc' hl hne content' hc
    simp only [List.mem_cons, List.mem_singleton, List.not_mem_nil, or_false] at hl
    rcases hl with h | h | h
    · exact absurd h hne
    · subst h; cases hc
    · subst h
      injection hc with hc
      subst hc
      intro hp
      have h2 : parseDeviceId demoEnv "B" = .ok 0xA4000001 := rfl
      rw [h2] at hp
      injection hp with hp
      revert hp
      decide
  · rintro ⟨d, hd, hip, _⟩
    have h2 : find (detectDevices demoEnv staleMap).2 0xA456789A
        = some { blankDevice with name := "Old", ip := "10.0.0.7", wake_up_time := 60 } := by rfl
    rw [h2] at hd
    injection hd with hd
    rw [← hd] at hip
    revert hip
    decide

/-- C6, amended: for a candidate whose fetch, id parse and name extraction
succeeded and whose euid is derived from no other candidate of the pass, the
record stored under that euid after `detectDevices` has that locator as `ip`
and the fetched name as `name` when the euid was absent before the pass; when
it was present, the record of before the pass stays as it was. -/
theorem detectDevices_record (env : Env) (m : DeviceMap) (devices : List String)
    (loc content : String) (id : Int) (name : String)
    (hd : env.discoverDevices = .ok devices) (hloc : loc ∈ devices)
    (hc : env.sendRequest loc = .ok content) (hi : parseDeviceId env content = .ok id)
    (hn : env.getParameterValuesFromContent "device" content = .ok name)
    (huniq : ∀ loc' ∈ devices, loc' ≠ loc → ∀ content', env.sendRequest loc' = .ok content' →
      parseDeviceId env content' ≠ .ok id) :
    (find m id = none →
        ∃ d, find (detectDevices env m).2 id = some d ∧ d.ip = loc ∧ d.name = name ∧
          d.sensor.euid = id) ∧
      (∀ d0, find m id = some d0 → find (detectDevices env m).2 id = some d0) := by
  have hs : Succeeds env loc id name := ⟨content, hc, hi, hn⟩
  simp only [detectDevices, hd]
  constructor
  · intro hnone
    have hsome := detectFold_finds env devices (env.newDevice, m) loc id name hloc hs
    cases hf : find (devices.foldl (detectStep env) (env.newDevice, m)).2 id with
    | none => rw [hf] at hsome; cases hsome
    | some d =>
      refine ⟨d, rfl, ?_⟩
      refine detectFold_record env devices (env.newDevice, m) loc id name ?_ ?_ d hf
      · intro loc' hl name' hs'
        by_cases hne : loc' = loc
        · subst hne
          exact ⟨rfl, (succeeds_unique env loc' id id name name' hs hs').2.symm⟩
        · obtain ⟨c', hc', hi', _⟩ := hs'
          exact absurd hi' (huniq loc' hl hne c' hc')
      · intro d0 hd0
        rw [hnone] at hd0
        cases hd0
  · intro d0 hd0
    exact detectFold_keeps env devices (env.newDevice, m) id d0 hd0

theorem detectDevices_record_witness :
    (find ([] : DeviceMap) 0xA4000001 = none →
        ∃ d, find (detectDevices demoEnv []).2 0xA4000001 = some d ∧ d.ip = "10.0.0.2" ∧
          d.name = "Boiler" ∧ d.sensor.euid = 0xA4000001) ∧
      (∀ d0, find ([] : DeviceMap) 0xA4000001 = some d0 →
        find (detectDevices demoEnv []).2 0xA4000001 = some d0) :=
  detectDevices_record demoEnv [] ["10.0.0.1", "10.0.0.9", "10.0.0.2"] "10.0.0.2" "B"
    0xA4000001 "Boiler" rfl (by decide) rfl rfl rfl (by
      intro loc' hl hne content' hc
      simp only [List.mem_cons, List.mem_singleton, List.not_mem_nil, or_false] at hl
      rcases hl with h | h | h
      · subst h
        injection hc with hc
        subst hc
        intro hp
        have h2 : parseDeviceId demoEnv "A" = .ok 0xA456789A := rfl
        rw [h2] at hp
        injection hp with hp
        revert hp
        decide
      · subst h; cases hc
      · exact absurd h hne)

/-- C9: a second `detectDevices` over the same candidates with the same
contents leaves the mapping as the first run left it: the same keys, none
added, removed or repeated. -/
theorem rediscovery_idempotent (env : Env) (m : DeviceMap) (hw : WellFormed m) :
    keys (detectDevices env (detectDevices env m).2).2 = keys (detectDevices env m).2 ∧
      (detectDevices env (detectDevices env m).2).2 = (detectDevices env m).2 ∧
      (keys (detectDevices env (detectDevices env m).2).2).Nodup := by
  have heq : (detectDevices env (detectDevices env m).2).2 = (detectDevices env m).2 := by
    unfold detectDevices
    cases hd : env.discoverDevices with
    | error e => rfl
    | ok devices =>
      simp only
      apply detectFold_fixed
      intro loc hloc id name hs
      exact detectFold_finds env devices (env.newDevice, m) loc id name hloc hs
  have hwf : WellFormed (detectDevices env m).2 := by
    unfold detectDevices
    cases hd : env.discoverDevices with
    | error e => exact hw
    | ok devices => exact detectFold_wellFormed env devices (env.newDevice, m) hw
  rw [heq]
  exact ⟨rfl, rfl, wellFormed_nodup _ hwf⟩

theorem rediscovery_idempotent_witness :
    keys (detectDevices demoEnv (detectDevices demoEnv staleMap).2).2
        = keys (detectDevices demoEnv staleMap).2 ∧
      (detectDevices demoEnv (detectDevices demoEnv staleMap).2).2
        = (detectDevices demoEnv staleMap).2 ∧
      (keys (detectDevices demoEnv (detectDevices demoEnv staleMap).2).2).Nodup :=
  rediscovery_idempotent demoEnv staleMap (by simp [WellFormed, keys, staleMap])

end VPT
